import Mathlib

/-!
A verification development for the htlib virtual-terminal library.

The Go sources are shallowly embedded as pure Lean functions: the JSON wire
format is modelled as an inductive value type (the text-level JSON grammar is
treated as a primitive, so a protocol line is an Option Json, with none
standing for a line that is not well-formed JSON); machine integers are Int
(with explicit clamping where the source's strconv.Atoi clamps); error values
are inductive types mirroring the distinct Go error classes; the concurrent
parts (the decode loop, the exit watcher, Close, Subscribe and Unsubscribe)
are modelled as a step function on an explicit state record, driven by lists
of actions that represent interleavings of the running tasks.
-/

deriving instance DecidableEq for Except

namespace Htlib

/-! ## JSON values (wire format)

Go decodes protocol lines with encoding/json.  We model a decoded JSON
document as an inductive value; numerals are modelled as integers (the
events' payload fields are all Go ints and strings; a non-integral numeral
would produce the same decode-error class as a wrong-typed field and is not
modelled separately).
-/

inductive Json where
  | null
  | jbool (b : Bool)
  | jnum (n : Int)
  | jstr (s : String)
  | jarr (elems : List Json)
  | jobj (fields : List (String × Json))
deriving BEq, Repr

/-- Lookup of an object key with Go semantics: when the same key appears
twice in one object, encoding/json keeps the later value. -/
def jLookup (fs : List (String × Json)) (k : String) : Option Json :=
  fs.reverse.lookup k

/-! ## Events

Mirrors InitEvent / OutputEvent / ResizeEvent / SnapshotEvent / MouseEvent
from types.go, collapsed into one sum type (the Go side uses an interface
with a Type tag).  The capture timestamp is modelled as a Nat. -/

inductive Event where
  | init (cols rows pid : Int) (seq text : String) (time : Nat)
  | output (seq : String) (time : Nat)
  | resize (cols rows : Int) (time : Nat)
  | snapshot (cols rows : Int) (seq text : String) (time : Nat)
  | mouse (event button : String) (row col : Int) (shift ctrl alt : Bool) (time : Nat)
deriving DecidableEq, Repr

/-! ## Decode errors

parseEvent can fail with several distinct Go error classes; the class is
what matters to the spec (recoverable InvalidEvent vs. plain json errors),
so the payload of each class is kept coarse. -/

inductive DecodeErr where
  /-- fmt.Errorf with ErrInvalidEvent wrapped, carrying the unknown tag. -/
  | invalidEvent (tag : String)
  /-- a json.UnmarshalTypeError: a value of the wrong kind for the target. -/
  | typeErr (expected : String)
  /-- a json.SyntaxError, also produced by unmarshalling a nil RawMessage. -/
  | syntaxErr
  /-- the wrapper fmt.Errorf produced for an unparsable envelope line. -/
  | envelopeWrap (e : DecodeErr)
deriving DecidableEq, Repr

/-- errors.Is(err, ErrInvalidEvent): whether the error wraps ErrInvalidEvent. -/
def wrapsInvalidEvent : DecodeErr → Bool
  | .invalidEvent _ => true
  | .envelopeWrap e => wrapsInvalidEvent e
  | _ => false

/-- json.Unmarshal of an object field into a Go int: an absent key or a JSON
null leaves the zero value; a numeral is taken; anything else is an
UnmarshalTypeError. -/
def getIntField (fs : List (String × Json)) (k : String) : Except DecodeErr Int :=
  match jLookup fs k with
  | none => .ok 0
  | some .null => .ok 0
  | some (.jnum n) => .ok n
  | some _ => .error (.typeErr "int")

/-- json.Unmarshal of an object field into a Go string, same conventions. -/
def getStrField (fs : List (String × Json)) (k : String) : Except DecodeErr String :=
  match jLookup fs k with
  | none => .ok ""
  | some .null => .ok ""
  | some (.jstr s) => .ok s
  | some _ => .error (.typeErr "string")

/-- json.Unmarshal into rawEvent (types.go): Type from the "type" key, Data
is the raw "data" value (json.RawMessage, so an absent key gives a nil
message, modelled as none). -/
def decodeRawEvent (j : Json) : Except DecodeErr (String × Option Json) :=
  match j with
  | .jobj fs =>
    match getStrField fs "type" with
    | .error e => .error e
    | .ok tag => .ok (tag, jLookup fs "data")
  | _ => .error (.typeErr "rawEvent")

/-- json.Unmarshal of raw.Data into the init payload struct
(cols, rows, pid, seq, text).  A nil RawMessage is a syntax error; a JSON
null leaves the zero-valued struct. -/
def decodeInitData (d : Option Json) : Except DecodeErr (Int × Int × Int × String × String) :=
  match d with
  | none => .error .syntaxErr
  | some .null => .ok (0, 0, 0, "", "")
  | some (.jobj fs) =>
    match getIntField fs "cols" with
    | .error e => .error e
    | .ok cols =>
      match getIntField fs "rows" with
      | .error e => .error e
      | .ok rows =>
        match getIntField fs "pid" with
        | .error e => .error e
        | .ok pid =>
          match getStrField fs "seq" with
          | .error e => .error e
          | .ok seq =>
            match getStrField fs "text" with
            | .error e => .error e
            | .ok text => .ok (cols, rows, pid, seq, text)
  | some _ => .error (.typeErr "struct")

/-- json.Unmarshal of raw.Data into the output payload struct (seq). -/
def decodeOutputData (d : Option Json) : Except DecodeErr String :=
  match d with
  | none => .error .syntaxErr
  | some .null => .ok ""
  | some (.jobj fs) => getStrField fs "seq"
  | some _ => .error (.typeErr "struct")

/-- json.Unmarshal of raw.Data into the resize payload struct (cols, rows). -/
def decodeResizeData (d : Option Json) : Except DecodeErr (Int × Int) :=
  match d with
  | none => .error .syntaxErr
  | some .null => .ok (0, 0)
  | some (.jobj fs) =>
    match getIntField fs "cols" with
    | .error e => .error e
    | .ok cols =>
      match getIntField fs "rows" with
      | .error e => .error e
      | .ok rows => .ok (cols, rows)
  | some _ => .error (.typeErr "struct")

/-- json.Unmarshal of raw.Data into the snapshot payload struct
(cols, rows, seq, text). -/
def decodeSnapshotData (d : Option Json) : Except DecodeErr (Int × Int × String × String) :=
  match d with
  | none => .error .syntaxErr
  | some .null => .ok (0, 0, "", "")
  | some (.jobj fs) =>
    match getIntField fs "cols" with
    | .error e => .error e
    | .ok cols =>
      match getIntField fs "rows" with
      | .error e => .error e
      | .ok rows =>
        match getStrField fs "seq" with
        | .error e => .error e
        | .ok seq =>
          match getStrField fs "text" with
          | .error e => .error e
          | .ok text => .ok (cols, rows, seq, text)
  | some _ => .error (.typeErr "struct")

/-- VirtualTerminal.parseEvent (vt.go lines 195-271).  The input is the
protocol line after text-level JSON parsing (none for a line that is not
well-formed JSON, in which case the source returns the wrapped
json.Unmarshal error); now is the capture timestamp time.Now().
The source dispatches on the envelope tag over exactly the four cases
init, output, resize and snapshot; every other tag, including "mouse",
falls to the default branch returning the ErrInvalidEvent wrap. -/
def parseEvent (line : Option Json) (now : Nat) : Except DecodeErr Event :=
  match line with
  | none => .error (.envelopeWrap .syntaxErr)
  | some j =>
    match decodeRawEvent j with
    | .error e => .error (.envelopeWrap e)
    | .ok (tag, dat) =>
      match tag with
      | "init" =>
        match decodeInitData dat with
        | .error e => .error e
        | .ok (cols, rows, pid, seq, text) => .ok (.init cols rows pid seq text now)
      | "output" =>
        match decodeOutputData dat with
        | .error e => .error e
        | .ok seq => .ok (.output seq now)
      | "resize" =>
        match decodeResizeData dat with
        | .error e => .error e
        | .ok (cols, rows) => .ok (.resize cols rows now)
      | "snapshot" =>
        match decodeSnapshotData dat with
        | .error e => .error e
        | .ok (cols, rows, seq, text) => .ok (.snapshot cols rows seq text now)
      | _ => .error (.invalidEvent tag)

/-- The decode loop of VirtualTerminal.readEvents restricted to its
line-handling discipline: a line whose parse fails is skipped, a line whose
parse succeeds is published; order is preserved. -/
def decodeLoop (lines : List (Option Json)) (now : Nat) : List Event :=
  lines.filterMap (fun l => (parseEvent l now).toOption)

/-! ## Commands and their wire encoding

Mirrors the command struct of types.go and sendCommand's
json.Marshal(cmd) followed by appending a newline (vt.go lines 274-296).
Payload is declared interface\x7b\x7d in Go; the library only ever stores a
string in it (Input) or leaves it nil, so it is modelled as Option String.
The omitempty semantics follow encoding/json's isEmptyValue: strings and
slices are empty at length zero, ints at zero, bools at false, and an
interface only when it is nil — an interface holding an empty string is
not empty. -/

structure Command where
  type : String := ""
  payload : Option String := none
  keys : List String := []
  cols : Int := 0
  rows : Int := 0
  event : String := ""
  button : String := ""
  row : Int := 0
  col : Int := 0
  shift : Bool := false
  ctrl : Bool := false
  alt : Bool := false
deriving DecidableEq, Repr

/-- The json field tags of the command struct, as an enumeration so that
key comparisons in proofs are structural. -/
inductive FieldKey where
  | ftype | fpayload | fkeys | fcols | frows | fevent | fbutton | frow | fcol
  | fshift | fctrl | falt
deriving DecidableEq, Repr

/-- The json tag string of each field, from the struct tags in types.go. -/
def keyName : FieldKey → String
  | .ftype => "type"
  | .fpayload => "payload"
  | .fkeys => "keys"
  | .fcols => "cols"
  | .frows => "rows"
  | .fevent => "event"
  | .fbutton => "button"
  | .frow => "row"
  | .fcol => "col"
  | .fshift => "shift"
  | .fctrl => "ctrl"
  | .falt => "alt"

/-- The JSON values that can appear in a marshalled command. -/
inductive JVal where
  | jstr (s : String)
  | jint (n : Int)
  | jbool (b : Bool)
  | jlist (xs : List String)
deriving DecidableEq, Repr

/-- json.Marshal of the command struct at the field level: fields are
visited in declaration order; type has no omitempty and is always emitted;
every other field carries omitempty and is skipped at its empty value
(nil interface, zero-length slice, zero int, false bool, empty string). -/
def marshalCommand (c : Command) : List (FieldKey × JVal) :=
  [(FieldKey.ftype, JVal.jstr c.type)]
  ++ (match c.payload with
      | some s => [(FieldKey.fpayload, JVal.jstr s)]
      | none => [])
  ++ (if c.keys = [] then [] else [(FieldKey.fkeys, JVal.jlist c.keys)])
  ++ (if c.cols = 0 then [] else [(FieldKey.fcols, JVal.jint c.cols)])
  ++ (if c.rows = 0 then [] else [(FieldKey.frows, JVal.jint c.rows)])
  ++ (if c.event = "" then [] else [(FieldKey.fevent, JVal.jstr c.event)])
  ++ (if c.button = "" then [] else [(FieldKey.fbutton, JVal.jstr c.button)])
  ++ (if c.row = 0 then [] else [(FieldKey.frow, JVal.jint c.row)])
  ++ (if c.col = 0 then [] else [(FieldKey.fcol, JVal.jint c.col)])
  ++ (if c.shift then [(FieldKey.fshift, JVal.jbool c.shift)] else [])
  ++ (if c.ctrl then [(FieldKey.fctrl, JVal.jbool c.ctrl)] else [])
  ++ (if c.alt then [(FieldKey.falt, JVal.jbool c.alt)] else [])

/-- The keys serialized for a command. -/
def commandKeys (c : Command) : List FieldKey :=
  (marshalCommand c).map Prod.fst

/-- Lowercase hex digit, as used by encoding/json's \u escapes. -/
def hexDigit (n : Nat) : Char :=
  if n < 10 then Char.ofNat (48 + n) else Char.ofNat (87 + n)

/-- encoding/json's escaping of one character inside a string literal:
quote, backslash, newline, carriage return and tab get two-character
escapes, other control characters get \u00XX, and the HTML-sensitive
characters and the line separators U+2028/U+2029 get \u escapes too. -/
def goEscapeChar (ch : Char) : List Char :=
  if ch = '"' then ['\\', '"']
  else if ch = '\\' then ['\\', '\\']
  else if ch = '\n' then ['\\', 'n']
  else if ch = '\r' then ['\\', 'r']
  else if ch = '\t' then ['\\', 't']
  else if ch.toNat < 32 then
    ['\\', 'u', '0', '0', hexDigit (ch.toNat / 16), hexDigit (ch.toNat % 16)]
  else if ch = '<' then ['\\', 'u', '0', '0', '3', 'c']
  else if ch = '>' then ['\\', 'u', '0', '0', '3', 'e']
  else if ch = '&' then ['\\', 'u', '0', '0', '2', '6']
  else if ch.toNat = 8232 then ['\\', 'u', '2', '0', '2', '8']
  else if ch.toNat = 8233 then ['\\', 'u', '2', '0', '2', '9']
  else [ch]

/-- A JSON string literal, double-quoted and escaped. -/
def quoteJ (s : String) : String :=
  String.mk ('"' :: (s.data.flatMap goEscapeChar) ++ ['"'])

/-- The decimal digit character of n % 10. -/
def digitChar (n : Nat) : Char := Char.ofNat (48 + n % 10)

/-- Decimal digits, least significant first, with structural fuel so the
definition evaluates inside the kernel; the fuel is sufficient whenever it
is at least the number being rendered. -/
def natToRevDigitsAux : Nat → Nat → List Char
  | _, 0 => []
  | 0, _ + 1 => []
  | fuel + 1, n + 1 => digitChar (n + 1) :: natToRevDigitsAux fuel ((n + 1) / 10)

/-- Decimal digits of a natural, least significant first ([] for 0). -/
def natToRevDigits (n : Nat) : List Char := natToRevDigitsAux n n

/-- Decimal rendering of an integer, as Go prints int64 values. -/
def intRender (n : Int) : String :=
  if n < 0 then String.mk ('-' :: (natToRevDigits n.natAbs).reverse)
  else if n = 0 then "0"
  else String.mk (natToRevDigits n.natAbs).reverse

/-- Comma-join, as between JSON array elements and object members. -/
def joinComma : List String → String
  | [] => ""
  | [x] => x
  | x :: y :: rest => x ++ "," ++ joinComma (y :: rest)

/-- Rendering of one marshalled value, compact as encoding/json emits it. -/
def renderJVal : JVal → String
  | .jstr s => quoteJ s
  | .jint n => intRender n
  | .jbool b => if b then "true" else "false"
  | .jlist xs => "[" ++ joinComma (xs.map quoteJ) ++ "]"

/-- Rendering of the whole object. -/
def renderObj (fs : List (FieldKey × JVal)) : String :=
  "\x7b" ++ joinComma (fs.map (fun f => quoteJ (keyName f.1) ++ ":" ++ renderJVal f.2)) ++ "\x7d"

/-- sendCommand's serialization: json.Marshal of the command with one
newline appended (vt.go lines 285-290). -/
def encodeCommand (c : Command) : String :=
  renderObj (marshalCommand c) ++ "\n"

/-- The command built by VirtualTerminal.Input. -/
def inputCmd (text : String) : Command :=
  { type := "input", payload := some text }

/-- The command built by VirtualTerminal.SendKeys. -/
def sendKeysCmd (keys : List String) : Command :=
  { type := "sendKeys", keys := keys }

/-- The command built by VirtualTerminal.Resize. -/
def resizeCmd (cols rows : Int) : Command :=
  { type := "resize", cols := cols, rows := rows }

/-- The command built by VirtualTerminal.TakeSnapshot. -/
def takeSnapshotCmd : Command :=
  { type := "takeSnapshot" }

/-! ## Config and Size -/

/-- Config from types.go.  Field names follow the Go struct. -/
structure Config where
  binary : String := ""
  args : List String := []
  size : String := ""
  cols : Int := 0
  rows : Int := 0
  htBinary : String := ""
  env : List String := []
deriving DecidableEq, Repr

/-- The digit list strconv.Atoi scans: everything after one optional
leading sign. -/
def atoiDigits (l : List Char) : List Char :=
  match l with
  | '+' :: r => r
  | '-' :: r => r
  | r => r

/-- Whether a character list is a well-formed strconv.Atoi input: an
optional sign followed by at least one decimal digit. -/
def isNumeric (l : List Char) : Bool :=
  !(atoiDigits l).isEmpty && (atoiDigits l).all (fun c => c.isDigit)

def maxInt64 : Int := 9223372036854775807

def minInt64 : Int := -9223372036854775808

/-- The integer value of a list of digit characters, most significant
first. -/
def digitsVal (ds : List Char) : Int :=
  ds.foldl (fun a c => a * 10 + ((c.toNat : Int) - 48)) 0

/-- strconv.Atoi on the characters of the input: the parsed value and
whether parsing succeeded.  A malformed input gives (0, false); a value
outside int64 range gives the clamped bound and false (strconv returns
ErrRange together with the clamped value, and Size ignores the error
either way). -/
def atoi (l : List Char) : Int × Bool :=
  let sign : Int := match l with
    | '-' :: _ => -1
    | _ => 1
  let ds := atoiDigits l
  if ds.isEmpty then (0, false)
  else if ds.all (fun c => c.isDigit) then
    let v := sign * digitsVal ds
    if v > maxInt64 then (maxInt64, false)
    else if v < minInt64 then (minInt64, false)
    else (v, true)
  else (0, false)

/-- strings.Split(s, "x") for the single-character separator Size uses,
at the character-list level: the empty string yields one empty part, and
every occurrence of the separator starts a new part. -/
def splitX (l : List Char) : List (List Char) :=
  l.foldr
    (fun c acc =>
      if c = 'x' then [] :: acc
      else
        match acc with
        | h :: t => (c :: h) :: t
        | [] => [[c]])
    [[]]

/-- VirtualTerminal.Size (vt.go lines 436-448): explicit cols/rows when
both are positive, else the two x-separated parts of the size string fed
through Atoi with the error ignored; anything else leaves the
zero-initialized named returns.  The Go signature has no error return. -/
def sizeF (c : Config) : Int × Int :=
  if c.cols > 0 ∧ c.rows > 0 then (c.cols, c.rows)
  else
    match splitX c.size.data with
    | [a, b] => ((atoi a).1, (atoi b).1)
    | _ => (0, 0)

/-! ## The lifecycle state machine

VirtualTerminal's shared mutable state (vt.go lines 17-38) restricted to
the fields the claims are about: the started/closed flags, the captured
error, the subscriber registry and the cancellation flag.  Subscriber
channels are identified by a monotone counter (each Subscribe allocates a
fresh channel, distinct from every channel allocated before).  The
exitDone/scanDone flags record that the one-shot background tasks have
run, so traces cannot replay them. -/

inductive VTErr where
  /-- fmt.Errorf("ht process exited: %w", err) from waitForExit. -/
  | processExited (msg : String)
  /-- fmt.Errorf("error reading stdout: %w", err) from readEvents. -/
  | readStdout (msg : String)
deriving DecidableEq, Repr

structure VTState where
  started : Bool := false
  closed : Bool := false
  canceled : Bool := false
  err : Option VTErr := none
  subs : List Nat := []
  nextSub : Nat := 0
  exitDone : Bool := false
  scanDone : Bool := false
deriving DecidableEq, Repr

/-- The state of a VirtualTerminal as returned by New. -/
def initVT : VTState := {}

/-- VirtualTerminal.Err (vt.go lines 429-433). -/
def errF (vt : VTState) : Option VTErr := vt.err

/-- How the environment behaves during Start: pipe creation and process
start either succeed or fail with some message. -/
inductive SpawnEnv where
  | ok
  | pipeFail (msg : String)
  | startFail (msg : String)
deriving DecidableEq, Repr

inductive StartRes where
  | okR
  | alreadyStarted
  | closedR
  | spawnErr (msg : String)
deriving DecidableEq, Repr

/-- VirtualTerminal.Start (vt.go lines 64-114).  The guards run first:
started wins over closed because the source tests vt.started before
vt.closed.  Only the ok branch sets started and launches the two
background tasks; in every failing branch no process is running and no
task has been launched (the state is unchanged in this model: the pipe
handles that a failing branch may have assigned are not modelled). -/
def startF (vt : VTState) (env : SpawnEnv) : VTState × StartRes :=
  if vt.started then (vt, .alreadyStarted)
  else if vt.closed then (vt, .closedR)
  else
    match env with
    | .pipeFail m => (vt, .spawnErr m)
    | .startFail m => (vt, .spawnErr m)
    | .ok => ({ vt with started := true }, .okR)

/-- The body of waitForExit (vt.go lines 180-192) after cmd.Wait returns:
a non-nil wait error is captured only when no error is captured yet, then
the shared context is canceled unconditionally. -/
def waitForExitF (vt : VTState) (werr : Option String) : VTState :=
  let vt1 := match werr with
    | some m => if vt.err = none then { vt with err := some (.processExited m) } else vt
    | none => vt
  { vt1 with exitDone := true, canceled := true }

/-- The tail of readEvents (vt.go lines 172-176) when the scanner loop
ends: a non-nil scanner error is assigned to vt.err unconditionally, with
no check whether an error is already captured. -/
def readEventsEndF (vt : VTState) (serr : Option String) : VTState :=
  let vt1 := match serr with
    | some m => { vt with err := some (.readStdout m) }
    | none => vt
  { vt1 with scanDone := true }

/-- VirtualTerminal.Close (vt.go lines 397-426) as one atomic effect; a
close action in a trace stands for a completed Close call, so the
preceding trace must already contain the background-task completions that
wg.Wait waited for (or the terminal was never started).  A second Close
returns early with a nil error.  The first Close cancels the context,
closes every subscriber channel (the returned list), clears the registry
and returns the captured error. -/
def closeF (vt : VTState) : VTState × Option VTErr × List Nat :=
  if vt.closed then (vt, none, [])
  else ({ vt with closed := true, canceled := true, subs := [] }, vt.err, vt.subs)

/-- VirtualTerminal.Subscribe (vt.go lines 372-379): allocates a fresh
channel, appends it to the registry and returns it. -/
def subscribeF (vt : VTState) : VTState × Nat :=
  ({ vt with subs := vt.subs ++ [vt.nextSub], nextSub := vt.nextSub + 1 }, vt.nextSub)

/-- Removal of the first occurrence, mirroring the loop in Unsubscribe. -/
def removeFirst : List Nat → Nat → List Nat
  | [], _ => []
  | x :: xs, id => if x = id then xs else x :: removeFirst xs id

/-- VirtualTerminal.Unsubscribe (vt.go lines 382-394): scan the registry
for the channel; when found, remove it and close it (the closed channels
are the second component); when not found, do nothing. -/
def unsubscribeF (vt : VTState) (id : Nat) : VTState × List Nat :=
  if vt.subs.contains id then
    ({ vt with subs := removeFirst vt.subs id }, [id])
  else (vt, [])

inductive SendErr where
  | notStarted
  | closedErr
  | writeFail (msg : String)
deriving DecidableEq, Repr

/-- VirtualTerminal.sendCommand (vt.go lines 274-296).  w is the write
outcome the pipe would produce (none for success).  The second component
is the line handed to stdin.Write, none when the state guards refused
before writing.  json.Marshal cannot fail on a command value (its fields
are strings, ints, bools and string slices), so the marshal-error branch
of the source is unreachable and not modelled. -/
def sendCommandF (vt : VTState) (c : Command) (w : Option String) :
    Except SendErr Unit × Option String :=
  if !vt.started then (.error .notStarted, none)
  else if vt.closed then (.error .closedErr, none)
  else
    match w with
    | some m => (.error (.writeFail m), some (encodeCommand c))
    | none => (.ok (), some (encodeCommand c))

/-- VirtualTerminal.Input. -/
def inputF (vt : VTState) (text : String) (w : Option String) :
    Except SendErr Unit × Option String :=
  sendCommandF vt (inputCmd text) w

/-- VirtualTerminal.SendKeys. -/
def sendKeysF (vt : VTState) (keys : List String) (w : Option String) :
    Except SendErr Unit × Option String :=
  sendCommandF vt (sendKeysCmd keys) w

/-- VirtualTerminal.Resize. -/
def resizeF (vt : VTState) (cols rows : Int) (w : Option String) :
    Except SendErr Unit × Option String :=
  sendCommandF vt (resizeCmd cols rows) w

/-- VirtualTerminal.TakeSnapshot. -/
def takeSnapshotF (vt : VTState) (w : Option String) :
    Except SendErr Unit × Option String :=
  sendCommandF vt takeSnapshotCmd w

/-- One observable step of an execution: a public call or the completion
point of one of the two background tasks. -/
inductive Act where
  | startA (env : SpawnEnv)
  | closeA
  | subscribeA
  | unsubscribeA (id : Nat)
  | procExitA (werr : Option String)
  | scanEndA (serr : Option String)
  | sendA (c : Command) (w : Option String)
deriving Repr

/-- The state transition of one step.  The background-task completions
fire at most once and only after a successful Start. -/
def stepVT (vt : VTState) (a : Act) : VTState :=
  match a with
  | .startA env => (startF vt env).1
  | .closeA => (closeF vt).1
  | .subscribeA => (subscribeF vt).1
  | .unsubscribeA id => (unsubscribeF vt id).1
  | .procExitA werr => if vt.started && !vt.exitDone then waitForExitF vt werr else vt
  | .scanEndA serr => if vt.started && !vt.scanDone then readEventsEndF vt serr else vt
  | .sendA _ _ => vt

/-- An execution from New through a list of steps. -/
def runVT (vt : VTState) (acts : List Act) : VTState := acts.foldl stepVT vt

/-- The states a VirtualTerminal can actually be in. -/
def ReachableVT (s : VTState) : Prop := ∃ acts, runVT initVT acts = s

/-! ## The event fan-out of readEvents

The publication part of the decode loop (vt.go lines 152-169): each
decoded event goes onto the primary channel (order-preserving), then a
non-blocking send is attempted to every registered subscriber channel.
A subscriber is a bounded queue of capacity 100 (Subscribe's
make(chan Event, 100)); recvd records every event ever enqueued for the
subscriber in order, drops counts the events lost to a full queue.
Consumers draining their channels and Subscribe/Unsubscribe calls
interleave with publications, which the action list makes explicit. -/

def subCap : Nat := 100

structure BSub where
  id : Nat
  queue : List Event := []
  recvd : List Event := []
  drops : Nat := 0
deriving DecidableEq, Repr

structure BState where
  prim : List Event := []
  subs : List BSub := []
  nextId : Nat := 0
deriving DecidableEq, Repr

def binit : BState := {}

/-- The non-blocking send of one event to one subscriber: enqueue when
there is room, silently drop otherwise (the select with default). -/
def deliver (e : Event) (sb : BSub) : BSub :=
  if sb.queue.length < subCap then
    { sb with queue := sb.queue ++ [e], recvd := sb.recvd ++ [e] }
  else { sb with drops := sb.drops + 1 }

/-- Removal of the first subscriber with the given id (Unsubscribe). -/
def removeFirstSub : List BSub → Nat → List BSub
  | [], _ => []
  | sb :: rest, id => if sb.id = id then rest else sb :: removeFirstSub rest id

inductive BAct where
  | publish (e : Event)
  | subscribeB
  | unsubscribeB (id : Nat)
  | consume (id : Nat)
deriving Repr

def bstep (s : BState) (a : BAct) : BState :=
  match a with
  | .publish e => { s with prim := s.prim ++ [e], subs := s.subs.map (deliver e) }
  | .subscribeB =>
    { s with subs := s.subs ++ [{ id := s.nextId }], nextId := s.nextId + 1 }
  | .unsubscribeB id => { s with subs := removeFirstSub s.subs id }
  | .consume id =>
    { s with subs := s.subs.map (fun sb => if sb.id = id then { sb with queue := sb.queue.drop 1 } else sb) }

def brun (s : BState) (acts : List BAct) : BState := acts.foldl bstep s

/-! ## WaitForSnapshot

vt.go lines 338-361.  The wait loop is driven by the sequence of
observations its select statement resolves to: an event received from the
subscriber channel, the caller's context firing, or the terminal's own
context firing. -/

inductive WaitObs where
  | recv (e : Event)
  | callerDone
  | vtDone
deriving DecidableEq, Repr

inductive WFSErr where
  /-- the TakeSnapshot write failed; its error is returned unchanged. -/
  | sendErr (e : SendErr)
  /-- ctx.Err() after the caller's context fired. -/
  | ctxCanceled
  /-- ErrClosed after the terminal's own context fired. -/
  | closedErr
deriving DecidableEq, Repr

def isSnapshotEv : Event → Bool
  | .snapshot .. => true
  | _ => false

/-- The wait loop: skip events that are not snapshots, return the first
snapshot, return the caller's cancellation error on ctx.Done, ErrClosed
on vt.ctx.Done.  none means the loop is still blocked. -/
def wfsLoop : List WaitObs → Option (Except WFSErr Event)
  | [] => none
  | .recv e :: rest => if isSnapshotEv e then some (.ok e) else wfsLoop rest
  | .callerDone :: _ => some (.error .ctxCanceled)
  | .vtDone :: _ => some (.error .closedErr)

/-- Whether an observation ends the wait loop. -/
def isDecisive : WaitObs → Bool
  | .recv e => isSnapshotEv e
  | .callerDone => true
  | .vtDone => true

/-- What the loop returns for the observation that ends it. -/
def wfsResultOf : WaitObs → Except WFSErr Event
  | .recv e => .ok e
  | .callerDone => .error .ctxCanceled
  | .vtDone => .error .closedErr

/-- VirtualTerminal.WaitForSnapshot: subscribe, send takeSnapshot (w is
the pipe's write outcome), then run the wait loop; the deferred
Unsubscribe runs on every return path.  The second component is none when
the loop is still blocked (in which case the subscriber is still
registered, as in the running program). -/
def waitForSnapshotF (vt : VTState) (w : Option String) (obs : List WaitObs) :
    VTState × Option (Except WFSErr Event) :=
  let sub := subscribeF vt
  match (sendCommandF sub.1 takeSnapshotCmd w).1 with
  | .error e => ((unsubscribeF sub.1 sub.2).1, some (.error (.sendErr e)))
  | .ok _ =>
    match wfsLoop obs with
    | none => (sub.1, none)
    | some r => ((unsubscribeF sub.1 sub.2).1, some r)

/-- The allocation invariant of the subscriber registry: every registered
channel is older than the allocation counter, and no channel is registered
twice. -/
def subsInv (vt : VTState) : Prop :=
  (∀ i ∈ vt.subs, i < vt.nextSub) ∧ vt.subs.Nodup

/-! ## Helper lemmas -/

theorem atoi_fst_eq_zero_of_not_numeric (l : List Char) (h : isNumeric l = false) :
    (atoi l).1 = 0 := by
  unfold atoi
  unfold isNumeric at h
  by_cases h1 : (atoiDigits l).isEmpty = true
  · simp [h1]
  · by_cases h2 : (atoiDigits l).all (fun c => c.isDigit) = true
    · rw [Bool.not_eq_true] at h1
      rw [h1, h2] at h
      simp at h
    · simp [h1, h2]

theorem removeFirst_append_of_not_mem (l : List Nat) (id : Nat) (h : id ∉ l) :
    removeFirst (l ++ [id]) id = l := by
  induction l with
  | nil => simp [removeFirst]
  | cons x xs ih =>
    have hx : x ≠ id := fun hx => h (hx ▸ List.mem_cons_self x xs)
    have hxs : id ∉ xs := fun hm => h (List.mem_cons_of_mem x hm)
    simp only [List.cons_append, removeFirst, List.append_eq, if_neg hx, ih hxs]

theorem removeFirst_sublist (l : List Nat) (id : Nat) :
    (removeFirst l id).Sublist l := by
  induction l with
  | nil => simp [removeFirst]
  | cons x xs ih =>
    simp only [removeFirst]
    by_cases hx : x = id
    · simp [hx]
    · rw [if_neg hx]
      exact ih.cons₂ x

theorem not_mem_removeFirst_of_nodup (l : List Nat) (id : Nat) (h : l.Nodup) :
    id ∉ removeFirst l id := by
  induction l with
  | nil => simp [removeFirst]
  | cons x xs ih =>
    simp only [removeFirst]
    rcases List.nodup_cons.mp h with ⟨hx, hxs⟩
    by_cases he : x = id
    · rw [if_pos he]
      exact fun hm => hx (he ▸ hm)
    · rw [if_neg he]
      intro hm
      rcases List.mem_cons.mp hm with h1 | h1
      · exact he h1.symm
      · exact ih hxs h1

theorem subsInv_of_eq (vt vt2 : VTState) (h : subsInv vt)
    (hs : vt2.subs = vt.subs) (hn : vt2.nextSub = vt.nextSub) : subsInv vt2 := by
  refine ⟨?_, ?_⟩
  · intro i hi
    rw [hn]
    exact h.1 i (by rwa [hs] at hi)
  · rw [hs]
    exact h.2

theorem waitForExitF_subs (vt : VTState) (werr : Option String) :
    (waitForExitF vt werr).subs = vt.subs ∧ (waitForExitF vt werr).nextSub = vt.nextSub := by
  unfold waitForExitF
  cases werr
  · exact ⟨rfl, rfl⟩
  · dsimp only
    refine ⟨?_, ?_⟩ <;> (split <;> rfl)

theorem readEventsEndF_subs (vt : VTState) (serr : Option String) :
    (readEventsEndF vt serr).subs = vt.subs ∧ (readEventsEndF vt serr).nextSub = vt.nextSub := by
  unfold readEventsEndF
  cases serr <;> exact ⟨rfl, rfl⟩

theorem subsInv_step (vt : VTState) (a : Act) (h : subsInv vt) : subsInv (stepVT vt a) := by
  rcases h with ⟨hlt, hnd⟩
  cases a with
  | startA env =>
    simp only [stepVT, startF]
    split
    · exact ⟨hlt, hnd⟩
    · split
      · exact ⟨hlt, hnd⟩
      · cases env <;> exact ⟨hlt, hnd⟩
  | closeA =>
    simp only [stepVT, closeF]
    split
    · exact ⟨hlt, hnd⟩
    · refine ⟨?_, ?_⟩ <;> simp
  | subscribeA =>
    simp only [stepVT, subscribeF]
    refine ⟨?_, ?_⟩
    · intro i hi
      simp only [List.mem_append, List.mem_singleton] at hi
      rcases hi with hi | hi
      · exact Nat.lt_succ_of_lt (hlt i hi)
      · simp [hi]
    · refine List.Nodup.append hnd (List.nodup_singleton _) ?_
      intro i hi hj
      simp only [List.mem_singleton] at hj
      exact absurd (hlt i hi) (by simp [hj])
  | unsubscribeA id =>
    simp only [stepVT, unsubscribeF]
    split
    · refine ⟨?_, (removeFirst_sublist vt.subs id).nodup hnd⟩
      intro i hi
      exact hlt i ((removeFirst_sublist vt.subs id).mem hi)
    · exact ⟨hlt, hnd⟩
  | procExitA werr =>
    simp only [stepVT]
    split
    · exact subsInv_of_eq vt _ ⟨hlt, hnd⟩ (waitForExitF_subs vt werr).1 (waitForExitF_subs vt werr).2
    · exact ⟨hlt, hnd⟩
  | scanEndA serr =>
    simp only [stepVT]
    split
    · exact subsInv_of_eq vt _ ⟨hlt, hnd⟩ (readEventsEndF_subs vt serr).1 (readEventsEndF_subs vt serr).2
    · exact ⟨hlt, hnd⟩
  | sendA c w => exact ⟨hlt, hnd⟩

theorem subsInv_run (acts : List Act) (vt : VTState) (h : subsInv vt) :
    subsInv (runVT vt acts) := by
  induction acts generalizing vt with
  | nil => exact h
  | cons a rest ih => exact ih (stepVT vt a) (subsInv_step vt a h)

theorem reachable_subsInv (vt : VTState) (h : ReachableVT vt) : subsInv vt := by
  rcases h with ⟨acts, hacts⟩
  rw [← hacts]
  exact subsInv_run acts initVT (by constructor <;> simp [initVT])

/-! ## Claim theorems -/

/-- C9: Size returns the explicitly configured cols and rows whenever both
are positive; otherwise it parses them from the x-separated size string;
a size string with the wrong number of x-separated parts yields (0, 0),
and a non-numeric part yields zero for that dimension.  Size has no error
to return: its Go signature returns only the two ints, and sizeF mirrors
that by being total into Int times Int. -/
theorem C9_size (c : Config) :
    (c.cols > 0 → c.rows > 0 → sizeF c = (c.cols, c.rows))
    ∧ (¬(c.cols > 0 ∧ c.rows > 0) →
        (∀ a b, splitX c.size.data = [a, b] →
          sizeF c = ((atoi a).1, (atoi b).1)
          ∧ (isNumeric a = false → (sizeF c).1 = 0)
          ∧ (isNumeric b = false → (sizeF c).2 = 0))
        ∧ ((splitX c.size.data).length ≠ 2 → sizeF c = (0, 0))) := by
  constructor
  · intro h1 h2
    rw [sizeF, if_pos ⟨h1, h2⟩]
  · intro hnp
    constructor
    · intro a b hab
      have heq : sizeF c = ((atoi a).1, (atoi b).1) := by
        rw [sizeF, if_neg hnp, hab]
      refine ⟨heq, ?_, ?_⟩
      · intro hna
        rw [heq]
        exact atoi_fst_eq_zero_of_not_numeric a hna
      · intro hnb
        rw [heq]
        exact atoi_fst_eq_zero_of_not_numeric b hnb
    · intro hlen
      rw [sizeF, if_neg hnp]
      rcases hs : splitX c.size.data with _ | ⟨a, _ | ⟨b, _ | ⟨d, t⟩⟩⟩ <;>
        first
          | rfl
          | (exact absurd (by rw [hs]; rfl) hlen)

/-- C9 witness: with no explicit dimensions and size string 12xab the
parsed width is 12 and the non-numeric height part yields 0. -/
theorem C9_size_witness :
    sizeF { size := "12xab" } = (12, 0) := by
  have h := ((C9_size { size := "12xab" }).2 (by decide)).1
    "12".data "ab".data (by decide)
  rw [h.1]
  have hb := h.2.2 (by decide)
  rw [h.1] at hb
  simp at hb
  decide

/-- C4 (code bug): parseEvent dispatches only on the four tags init,
output, resize, snapshot.  The mouse envelope from the repository's own
TestParseEvent falls to the default branch and yields the ErrInvalidEvent
wrap instead of a MouseEvent; moreover, a payload shape mismatch (a
numeric seq in an output payload) yields the raw json type error, which
does not wrap ErrInvalidEvent, contradicting the claim that only the
InvalidEvent class can be produced.  The decode loop does skip every
failing line, which is the part of the claim the code satisfies. -/
theorem C4_mouse_not_dispatched :
    parseEvent (some (Json.jobj
      [("type", Json.jstr "mouse"),
       ("data", Json.jobj
         [("event", Json.jstr "click"), ("button", Json.jstr "left"),
          ("row", Json.jnum 10), ("col", Json.jnum 20),
          ("shift", Json.jbool false), ("ctrl", Json.jbool true),
          ("alt", Json.jbool false)])])) 0
      = .error (.invalidEvent "mouse")
    ∧ wrapsInvalidEvent (.invalidEvent "mouse") = true
    ∧ parseEvent (some (Json.jobj
        [("type", Json.jstr "output"),
         ("data", Json.jobj [("seq", Json.jnum 3)])])) 0
      = .error (.typeErr "string")
    ∧ wrapsInvalidEvent (.typeErr "string") = false
    ∧ decodeLoop
        [some (Json.jobj [("type", Json.jstr "output"),
                          ("data", Json.jobj [("seq", Json.jstr "hi")])]),
         some (Json.jobj [("type", Json.jstr "mouse"),
                          ("data", Json.jobj [("event", Json.jstr "click")])])] 0
      = [.output "hi" 0] := by
  decide

/-- C1 counterexample: after the exit watcher has captured the process
exit error, the readEvents scanner-error path assigns vt.err again
unconditionally, so Err() afterwards returns the later scanner error, not
the first fatal error. -/
theorem C1_counterexample :
    (runVT initVT [Act.startA SpawnEnv.ok,
        Act.procExitA (some "exit status 1")]).err
      = some (VTErr.processExited "exit status 1")
    ∧ (runVT initVT [Act.startA SpawnEnv.ok,
        Act.procExitA (some "exit status 1"),
        Act.scanEndA (some "read: file already closed")]).err
      = some (VTErr.readStdout "read: file already closed")
    ∧ errF (runVT initVT [Act.startA SpawnEnv.ok,
        Act.procExitA (some "exit status 1"),
        Act.scanEndA (some "read: file already closed")])
      ≠ some (VTErr.processExited "exit status 1") := by
  decide

/-- C1 amended: the exit-watch path is first-write-wins (it never
replaces an already captured error), but the stdout-read path assigns
unconditionally: a scanner error recorded later always overwrites, and a
nil scanner error leaves the captured error alone. -/
theorem C1_amended (vt : VTState) (w : VTErr) (m : String) (werr : Option String)
    (h : vt.err = some w) :
    (waitForExitF vt werr).err = some w
    ∧ (readEventsEndF vt (some m)).err = some (VTErr.readStdout m)
    ∧ (readEventsEndF vt none).err = some w := by
  refine ⟨?_, ?_, ?_⟩
  · unfold waitForExitF
    cases werr
    · exact h
    · dsimp only
      rw [if_neg (by rw [h]; exact fun hc => Option.noConfusion hc)]
      exact h
  · simp [readEventsEndF]
  · simp [readEventsEndF, h]

/-- C1 amended witness at a state with a captured process-exit error. -/
theorem C1_amended_witness :
    (waitForExitF { err := some (VTErr.processExited "exit status 1") } (some "late")).err
      = some (VTErr.processExited "exit status 1")
    ∧ (readEventsEndF { err := some (VTErr.processExited "exit status 1") }
        (some "file already closed")).err
      = some (VTErr.readStdout "file already closed") := by
  have h := C1_amended { err := some (VTErr.processExited "exit status 1") }
    (VTErr.processExited "exit status 1") "file already closed" (some "late") rfl
  exact ⟨h.1, h.2.1⟩

/-- C2 counterexample: a VirtualTerminal with a captured process-exit
error returns it from the first Close, but a second Close takes the early
already-closed return and yields nil, so the two calls do not return the
same captured error. -/
theorem C2_counterexample :
    (closeF (runVT initVT [Act.startA SpawnEnv.ok,
        Act.procExitA (some "exit status 1"), Act.scanEndA none])).2.1
      = some (VTErr.processExited "exit status 1")
    ∧ (closeF (closeF (runVT initVT [Act.startA SpawnEnv.ok,
        Act.procExitA (some "exit status 1"), Act.scanEndA none])).1).2.1
      = none
    ∧ (some (VTErr.processExited "exit status 1") : Option VTErr) ≠ none := by
  decide

/-- C2 amended: Close is idempotent in effect and panic-free — the second
call leaves the state unchanged, closes no channel and returns nil — and
the two calls return the same value exactly when the first captured no
error. -/
theorem C2_amended (vt : VTState) :
    (closeF (closeF vt).1).1 = (closeF vt).1
    ∧ (closeF (closeF vt).1).2.1 = none
    ∧ (closeF (closeF vt).1).2.2 = []
    ∧ ((closeF (closeF vt).1).2.1 = (closeF vt).2.1 ↔ (closeF vt).2.1 = none) := by
  by_cases h : vt.closed = true
  · simp [closeF, h, eq_comm]
  · simp [closeF, h, eq_comm]

/-- C3 counterexample: a VirtualTerminal that was started and then closed
has both flags set; Start tests the started flag first, so it returns
AlreadyStarted on this Closed instance, not the Closed error the claim
requires. -/
theorem C3_counterexample :
    (runVT initVT [Act.startA SpawnEnv.ok, Act.closeA]).closed = true
    ∧ (startF (runVT initVT [Act.startA SpawnEnv.ok, Act.closeA]) SpawnEnv.ok).2
      = StartRes.alreadyStarted
    ∧ StartRes.alreadyStarted ≠ StartRes.closedR := by
  decide

/-- C3 amended: Start on any instance whose started flag is set returns
AlreadyStarted (even if it has since been closed), and Start on a closed
instance that was never started returns the Closed error; in every such
case the state is unchanged, so no process is spawned and no background
task is launched. -/
theorem C3_amended (vt : VTState) (env : SpawnEnv) :
    (vt.started = true → startF vt env = (vt, StartRes.alreadyStarted))
    ∧ (vt.started = false → vt.closed = true → startF vt env = (vt, StartRes.closedR)) := by
  constructor
  · intro h
    unfold startF
    rw [if_pos h]
  · intro h1 h2
    unfold startF
    rw [if_neg (by rw [h1]; exact Bool.false_ne_true), if_pos h2]

/-- C3 amended witness: a started-then-closed instance gets
AlreadyStarted, a closed never-started instance gets the Closed error. -/
theorem C3_amended_witness :
    startF (runVT initVT [Act.startA SpawnEnv.ok, Act.closeA]) SpawnEnv.ok
      = (runVT initVT [Act.startA SpawnEnv.ok, Act.closeA], StartRes.alreadyStarted)
    ∧ startF (runVT initVT [Act.closeA]) SpawnEnv.ok
      = (runVT initVT [Act.closeA], StartRes.closedR) := by
  refine ⟨(C3_amended (runVT initVT [Act.startA SpawnEnv.ok, Act.closeA]) SpawnEnv.ok).1 (by decide),
    (C3_amended (runVT initVT [Act.closeA]) SpawnEnv.ok).2 (by decide) (by decide)⟩

/-- C7: every command method delegates to sendCommand with its variant's
command; sendCommand refuses with NotStarted before Start (the started
flag is tested first, mirroring the source order) and with Closed on a
started-then-closed instance, and in both refusals nothing reaches the
child's stdin (the written component is none); only in the Running state
is the serialized command written, and a pipe write failure is returned
to the caller immediately. -/
theorem C7_command_gating (vt : VTState) (text : String) (keys : List String)
    (cols rows : Int) (w : Option String) (m : String) (c : Command) :
    (inputF vt text w = sendCommandF vt (inputCmd text) w
      ∧ sendKeysF vt keys w = sendCommandF vt (sendKeysCmd keys) w
      ∧ resizeF vt cols rows w = sendCommandF vt (resizeCmd cols rows) w
      ∧ takeSnapshotF vt w = sendCommandF vt takeSnapshotCmd w)
    ∧ (vt.started = false → sendCommandF vt c w = (.error .notStarted, none))
    ∧ (vt.started = true → vt.closed = true →
        sendCommandF vt c w = (.error .closedErr, none))
    ∧ (vt.started = true → vt.closed = false →
        sendCommandF vt c none = (.ok (), some (encodeCommand c))
        ∧ sendCommandF vt c (some m) = (.error (.writeFail m), some (encodeCommand c))) := by
  refine ⟨⟨rfl, rfl, rfl, rfl⟩, ?_, ?_, ?_⟩
  · intro h
    unfold sendCommandF
    rw [if_pos (by rw [h]; rfl)]
  · intro h1 h2
    unfold sendCommandF
    rw [if_neg (by rw [h1]; simp), if_pos h2]
  · intro h1 h2
    unfold sendCommandF
    constructor <;> rw [if_neg (by rw [h1]; simp), if_neg (by rw [h2]; exact Bool.false_ne_true)]

/-- C7 witness: before Start the Input command is refused with NotStarted
and nothing is written; on a running instance the takeSnapshot line is
written and a write failure is surfaced. -/
theorem C7_command_gating_witness :
    inputF initVT "echo hi\n" none = (.error .notStarted, none)
    ∧ sendCommandF (runVT initVT [Act.startA SpawnEnv.ok]) takeSnapshotCmd none
      = (.ok (), some (encodeCommand takeSnapshotCmd))
    ∧ sendCommandF (runVT initVT [Act.startA SpawnEnv.ok]) takeSnapshotCmd (some "broken pipe")
      = (.error (.writeFail "broken pipe"), some (encodeCommand takeSnapshotCmd)) := by
  have h0 := C7_command_gating initVT "echo hi\n" [] 0 0 none "broken pipe" (inputCmd "echo hi\n")
  have h1 := C7_command_gating (runVT initVT [Act.startA SpawnEnv.ok]) "" [] 0 0 none
    "broken pipe" takeSnapshotCmd
  refine ⟨?_, (h1.2.2.2 (by decide) (by decide)).1, (h1.2.2.2 (by decide) (by decide)).2⟩
  rw [h0.1.1]
  exact h0.2.1 (by decide)

/-- C10: Unsubscribe with a channel that is not in the registry is a
no-op (state unchanged, nothing closed); from any reachable state, two
consecutive Unsubscribe calls for the same channel close it at most once
because the registry never holds a channel twice; and after a Close from
the open state the registry is empty, so any further Unsubscribe is a
no-op and cannot close a channel again. -/
theorem C10_unsubscribe_safe (vt : VTState) (id : Nat) (h : ReachableVT vt) :
    (vt.subs.contains id = false → unsubscribeF vt id = (vt, []))
    ∧ ((unsubscribeF vt id).2 ++ (unsubscribeF (unsubscribeF vt id).1 id).2).length ≤ 1
    ∧ (vt.closed = false →
        (closeF vt).1.subs = []
        ∧ unsubscribeF (closeF vt).1 id = ((closeF vt).1, [])) := by
  have hinv := reachable_subsInv vt h
  refine ⟨?_, ?_, ?_⟩
  · intro hc
    unfold unsubscribeF
    rw [if_neg (by rw [hc]; exact Bool.false_ne_true)]
  · by_cases hc : vt.subs.contains id = true
    · have h1 : unsubscribeF vt id = ({ vt with subs := removeFirst vt.subs id }, [id]) := by
        unfold unsubscribeF
        rw [if_pos hc]
      have h2 : (removeFirst vt.subs id).contains id = false := by
        rw [Bool.eq_false_iff]
        intro hcc
        exact not_mem_removeFirst_of_nodup vt.subs id hinv.2 (List.mem_of_elem_eq_true hcc)
      have h3 : unsubscribeF { vt with subs := removeFirst vt.subs id } id
          = ({ vt with subs := removeFirst vt.subs id }, []) := by
        unfold unsubscribeF
        rw [if_neg (by simp only []; rw [h2]; exact Bool.false_ne_true)]
      rw [h1]
      simp only [h3]
      simp
    · have h1 : unsubscribeF vt id = (vt, []) := by
        unfold unsubscribeF
        rw [if_neg hc]
      rw [h1]
      simp only [h1]
      simp
  · intro hcl
    have h1 : (closeF vt).1.subs = [] := by
      unfold closeF
      rw [if_neg (by rw [hcl]; exact Bool.false_ne_true)]
    refine ⟨h1, ?_⟩
    unfold unsubscribeF
    rw [if_neg (by rw [h1]; simp)]

/-- C10 witness: in the reachable state with one subscriber, removing an
unknown channel is a no-op, double removal of channel 0 closes it once,
and Unsubscribe after Close closes nothing. -/
theorem C10_unsubscribe_safe_witness :
    unsubscribeF (runVT initVT [Act.subscribeA]) 5 = (runVT initVT [Act.subscribeA], [])
    ∧ ((unsubscribeF (runVT initVT [Act.subscribeA]) 0).2
        ++ (unsubscribeF (unsubscribeF (runVT initVT [Act.subscribeA]) 0).1 0).2).length ≤ 1
    ∧ unsubscribeF (closeF (runVT initVT [Act.subscribeA])).1 0
      = ((closeF (runVT initVT [Act.subscribeA])).1, []) := by
  have h5 := C10_unsubscribe_safe (runVT initVT [Act.subscribeA]) 5 ⟨[Act.subscribeA], rfl⟩
  have h0 := C10_unsubscribe_safe (runVT initVT [Act.subscribeA]) 0 ⟨[Act.subscribeA], rfl⟩
  exact ⟨h5.1 (by decide), h0.2.1, (h0.2.2 (by decide)).2⟩

theorem wfsLoop_eq_find (obs : List WaitObs) :
    wfsLoop obs = (obs.find? isDecisive).map wfsResultOf := by
  induction obs with
  | nil => rfl
  | cons o rest ih =>
    cases o with
    | recv e =>
      by_cases he : isSnapshotEv e = true
      · simp [wfsLoop, List.find?, isDecisive, he, wfsResultOf]
      · simp only [Bool.not_eq_true] at he
        simp [wfsLoop, List.find?, isDecisive, he, ih]
    | callerDone => simp [wfsLoop, List.find?, isDecisive, wfsResultOf]
    | vtDone => simp [wfsLoop, List.find?, isDecisive, wfsResultOf]

theorem wfsLoop_ok_snapshot (obs : List WaitObs) (e : Event)
    (h : wfsLoop obs = some (.ok e)) : isSnapshotEv e = true := by
  induction obs with
  | nil => exact absurd h (by simp [wfsLoop])
  | cons o rest ih =>
    cases o with
    | recv ev =>
      by_cases hev : isSnapshotEv ev = true
      · simp only [wfsLoop, hev, if_true, Option.some.injEq] at h
        rcases h with h
        injection h with h2
        rw [← h2]
        exact hev
      · simp only [Bool.not_eq_true] at hev
        simp only [wfsLoop, hev, Bool.false_eq_true, if_false] at h
        exact ih h
    | callerDone => simp [wfsLoop] at h
    | vtDone => simp [wfsLoop] at h

/-- C6: WaitForSnapshot registers a fresh subscriber (the allocated
channel is not already in the registry); on every exit path the deferred
Unsubscribe restores the registry; a TakeSnapshot write failure is
returned at once, without consuming any observation; otherwise the result
is decided by the first decisive observation of the wait loop — the first
snapshot event received (other variants are skipped), or the caller's
cancellation error on the caller's context, or the Closed error on the
terminal's own context; and every successful result is a snapshot
event. -/
theorem C6_wait_for_snapshot (vt : VTState) (w : Option String) (obs : List WaitObs)
    (h : ReachableVT vt) :
    ((subscribeF vt).2 ∉ vt.subs)
    ∧ (∀ r, (waitForSnapshotF vt w obs).2 = some r →
        (waitForSnapshotF vt w obs).1.subs = vt.subs)
    ∧ (∀ e, (sendCommandF (subscribeF vt).1 takeSnapshotCmd w).1 = .error e →
        (waitForSnapshotF vt w obs).2 = some (.error (.sendErr e)))
    ∧ ((sendCommandF (subscribeF vt).1 takeSnapshotCmd w).1 = .ok () →
        (waitForSnapshotF vt w obs).2 = (obs.find? isDecisive).map wfsResultOf)
    ∧ (∀ e, (waitForSnapshotF vt w obs).2 = some (.ok e) → isSnapshotEv e = true) := by
  have hinv := reachable_subsInv vt h
  have hfresh : vt.nextSub ∉ vt.subs :=
    fun hm => absurd (hinv.1 vt.nextSub hm) (lt_irrefl vt.nextSub)
  have hcont : ((subscribeF vt).1.subs.contains (subscribeF vt).2) = true :=
    List.elem_eq_true_of_mem (by simp [subscribeF])
  have hunsub : (unsubscribeF (subscribeF vt).1 (subscribeF vt).2).1.subs = vt.subs := by
    unfold unsubscribeF
    rw [if_pos hcont]
    exact removeFirst_append_of_not_mem vt.subs vt.nextSub hfresh
  refine ⟨fun hm => absurd (hinv.1 vt.nextSub hm) (lt_irrefl vt.nextSub), ?_, ?_, ?_, ?_⟩
  · intro r hr
    unfold waitForSnapshotF at hr ⊢
    dsimp only at hr ⊢
    cases hsend : (sendCommandF (subscribeF vt).1 takeSnapshotCmd w).1 with
    | error e => exact hunsub
    | ok u =>
      cases hl : wfsLoop obs with
      | none =>
        rw [hsend, hl] at hr
        simp at hr
      | some r2 => exact hunsub
  · intro e hsend
    unfold waitForSnapshotF
    dsimp only
    rw [hsend]
  · intro hsend
    unfold waitForSnapshotF
    dsimp only
    rw [hsend]
    cases hl : wfsLoop obs with
    | none => rw [← wfsLoop_eq_find, hl]
    | some r2 => rw [← wfsLoop_eq_find, hl]
  · intro e he
    unfold waitForSnapshotF at he
    dsimp only at he
    cases hsend : (sendCommandF (subscribeF vt).1 takeSnapshotCmd w).1 with
    | error e2 =>
      rw [hsend] at he
      simp at he
    | ok u =>
      rw [hsend] at he
      cases hl : wfsLoop obs with
      | none =>
        rw [hl] at he
        exact absurd he (by simp)
      | some r2 =>
        rw [hl] at he
        simp only [Option.some.injEq] at he
        exact wfsLoop_ok_snapshot obs e (by rw [hl, he])

/-- C6 witness: on a freshly started terminal, with a successful write
and observations that deliver an output event then a snapshot event, the
call returns the snapshot and leaves the registry as it found it. -/
theorem C6_wait_for_snapshot_witness :
    (waitForSnapshotF (runVT initVT [Act.startA SpawnEnv.ok]) none
        [WaitObs.recv (Event.output "x" 0),
         WaitObs.recv (Event.snapshot 80 24 "s" "t" 1)]).2
      = some (.ok (Event.snapshot 80 24 "s" "t" 1))
    ∧ (waitForSnapshotF (runVT initVT [Act.startA SpawnEnv.ok]) none
        [WaitObs.recv (Event.output "x" 0),
         WaitObs.recv (Event.snapshot 80 24 "s" "t" 1)]).1.subs
      = (runVT initVT [Act.startA SpawnEnv.ok]).subs := by
  have h := C6_wait_for_snapshot (runVT initVT [Act.startA SpawnEnv.ok]) none
    [WaitObs.recv (Event.output "x" 0), WaitObs.recv (Event.snapshot 80 24 "s" "t" 1)]
    ⟨[Act.startA SpawnEnv.ok], rfl⟩
  have hres := h.2.2.2.1 (by decide)
  have hr2 : (waitForSnapshotF (runVT initVT [Act.startA SpawnEnv.ok]) none
      [WaitObs.recv (Event.output "x" 0),
       WaitObs.recv (Event.snapshot 80 24 "s" "t" 1)]).2
      = some (.ok (Event.snapshot 80 24 "s" "t" 1)) := by
    rw [hres]
    decide
  exact ⟨hr2, h.2.1 (.ok (Event.snapshot 80 24 "s" "t" 1)) hr2⟩

theorem mem_of_mem_removeFirstSub (l : List BSub) (id : Nat) (sb : BSub)
    (h : sb ∈ removeFirstSub l id) : sb ∈ l := by
  induction l with
  | nil => simp [removeFirstSub] at h
  | cons x xs ih =>
    simp only [removeFirstSub] at h
    by_cases hx : x.id = id
    · rw [if_pos hx] at h
      exact List.mem_cons_of_mem x h
    · rw [if_neg hx] at h
      rcases List.mem_cons.mp h with h1 | h1
      · exact h1 ▸ List.mem_cons_self x xs
      · exact List.mem_cons_of_mem x (ih h1)

theorem brun_sublist (acts : List BAct) (s : BState)
    (h : ∀ sb ∈ s.subs, sb.recvd.Sublist s.prim) :
    ∀ sb ∈ (brun s acts).subs, sb.recvd.Sublist (brun s acts).prim := by
  induction acts generalizing s with
  | nil => exact h
  | cons a rest ih =>
    refine ih (bstep s a) ?_
    intro sb hsb
    cases a with
    | publish e =>
      simp only [bstep] at hsb ⊢
      rcases List.mem_map.mp hsb with ⟨sb0, hsb0, rfl⟩
      unfold deliver
      split
      · exact (h sb0 hsb0).append (List.Sublist.refl [e])
      · exact (h sb0 hsb0).trans (List.sublist_append_left s.prim [e])
    | subscribeB =>
      simp only [bstep] at hsb ⊢
      rcases List.mem_append.mp hsb with h1 | h1
      · exact h sb h1
      · simp only [List.mem_singleton] at h1
        rw [h1]
        exact List.nil_sublist s.prim
    | unsubscribeB id =>
      simp only [bstep] at hsb ⊢
      exact h sb (mem_of_mem_removeFirstSub s.subs id sb hsb)
    | consume id =>
      simp only [bstep] at hsb ⊢
      rcases List.mem_map.mp hsb with ⟨sb0, hsb0, rfl⟩
      by_cases hid : sb0.id = id
      · rw [if_pos hid]
        exact h sb0 hsb0
      · rw [if_neg hid]
        exact h sb0 hsb0

theorem brun_suffix (acts : List BAct) (s : BState)
    (h : ∀ sb ∈ s.subs, sb.drops = 0 → sb.recvd <:+ s.prim) :
    ∀ sb ∈ (brun s acts).subs, sb.drops = 0 → sb.recvd <:+ (brun s acts).prim := by
  induction acts generalizing s with
  | nil => exact h
  | cons a rest ih =>
    refine ih (bstep s a) ?_
    intro sb hsb hd
    cases a with
    | publish e =>
      simp only [bstep] at hsb ⊢
      rcases List.mem_map.mp hsb with ⟨sb0, hsb0, rfl⟩
      unfold deliver at hd ⊢
      by_cases hq : sb0.queue.length < subCap
      · rw [if_pos hq] at hd ⊢
        simp only at hd
        rcases h sb0 hsb0 hd with ⟨t, ht⟩
        exact ⟨t, by rw [← List.append_assoc, ht]⟩
      · rw [if_neg hq] at hd
        simp only at hd
        exact absurd hd (Nat.succ_ne_zero sb0.drops)
    | subscribeB =>
      simp only [bstep] at hsb ⊢
      rcases List.mem_append.mp hsb with h1 | h1
      · exact h sb h1 hd
      · simp only [List.mem_singleton] at h1
        rw [h1]
        exact ⟨s.prim, by simp⟩
    | unsubscribeB id =>
      simp only [bstep] at hsb ⊢
      exact h sb (mem_of_mem_removeFirstSub s.subs id sb hsb) hd
    | consume id =>
      simp only [bstep] at hsb ⊢
      rcases List.mem_map.mp hsb with ⟨sb0, hsb0, rfl⟩
      by_cases hid : sb0.id = id
      · rw [if_pos hid] at hd ⊢
        simp only at hd
        exact h sb0 hsb0 hd
      · rw [if_neg hid] at hd ⊢
        exact h sb0 hsb0 hd

/-- C5: the decode loop's fan-out.  Publishing appends the event to the
primary stream unconditionally; the non-blocking send to one subscriber
depends only on that subscriber's own queue — a full queue drops the
event for that subscriber alone (only its drop counter changes) and a
non-full queue enqueues it; along every interleaving of publishes,
subscribes, unsubscribes and consumer reads, each subscriber's received
sequence is a subsequence of the primary stream (no reordering, no
duplication), and a subscriber that never dropped holds a suffix of the
primary stream: the same relative order with nothing missed since it
registered. -/
theorem C5_fanout (acts : List BAct) (s : BState) (e : Event) (sb sc : BSub) :
    ((bstep s (BAct.publish e)).prim = s.prim ++ [e])
    ∧ (subCap ≤ sc.queue.length → deliver e sc = { sc with drops := sc.drops + 1 })
    ∧ (sc.queue.length < subCap →
        deliver e sc = { sc with queue := sc.queue ++ [e], recvd := sc.recvd ++ [e] })
    ∧ (sb ∈ (brun binit acts).subs → sb.recvd.Sublist (brun binit acts).prim)
    ∧ (sb ∈ (brun binit acts).subs → sb.drops = 0 → sb.recvd <:+ (brun binit acts).prim) := by
  refine ⟨rfl, ?_, ?_, ?_, ?_⟩
  · intro hq
    unfold deliver
    rw [if_neg (Nat.not_lt.mpr hq)]
  · intro hq
    unfold deliver
    rw [if_pos hq]
  · intro hsb
    refine brun_sublist acts binit ?_ sb hsb
    intro sb0 hsb0
    simp [binit] at hsb0
  · intro hsb hd
    refine brun_suffix acts binit ?_ sb hsb hd
    intro sb0 hsb0
    simp [binit] at hsb0

/-- C5 witness: a subscriber registered before two publishes receives
both events in order (its queue holds the whole primary stream), and one
delivery to a full subscriber only bumps that subscriber's drop
counter. -/
theorem C5_fanout_witness :
    ({ id := 0, queue := [Event.output "a" 0, Event.output "b" 1],
       recvd := [Event.output "a" 0, Event.output "b" 1], drops := 0 } : BSub).recvd.Sublist
      (brun binit [BAct.subscribeB, BAct.publish (Event.output "a" 0),
        BAct.publish (Event.output "b" 1)]).prim
    ∧ ({ id := 0, queue := [Event.output "a" 0, Event.output "b" 1],
         recvd := [Event.output "a" 0, Event.output "b" 1], drops := 0 } : BSub).recvd <:+
      (brun binit [BAct.subscribeB, BAct.publish (Event.output "a" 0),
        BAct.publish (Event.output "b" 1)]).prim
    ∧ deliver (Event.output "c" 2)
        { id := 7, queue := List.replicate subCap (Event.output "q" 9) }
      = { id := 7, queue := List.replicate subCap (Event.output "q" 9), drops := 1 } := by
  have h := C5_fanout
    [BAct.subscribeB, BAct.publish (Event.output "a" 0), BAct.publish (Event.output "b" 1)]
    binit (Event.output "c" 2)
    { id := 0, queue := [Event.output "a" 0, Event.output "b" 1],
      recvd := [Event.output "a" 0, Event.output "b" 1], drops := 0 }
    { id := 7, queue := List.replicate subCap (Event.output "q" 9) }
  refine ⟨h.2.2.2.1 (by decide), h.2.2.2.2 (by decide) rfl, ?_⟩
  have h2 := h.2.1 (by simp)
  rw [h2]

theorem hexDigit_ne_newline (n : Nat) (h : n < 16) : hexDigit n ≠ '\n' := by
  interval_cases n <;> decide

theorem digitChar_ne_newline (m : Nat) : digitChar m ≠ '\n' := by
  unfold digitChar
  have hk : m % 10 < 10 := Nat.mod_lt m (by decide)
  revert hk
  generalize m % 10 = k
  intro hk
  interval_cases k <;> decide

theorem newline_not_mem_goEscapeChar (ch : Char) : '\n' ∉ goEscapeChar ch := by
  unfold goEscapeChar
  by_cases h1 : ch = '"'
  · rw [if_pos h1]; decide
  rw [if_neg h1]
  by_cases h2 : ch = '\\'
  · rw [if_pos h2]; decide
  rw [if_neg h2]
  by_cases h3 : ch = '\n'
  · rw [if_pos h3]; decide
  rw [if_neg h3]
  by_cases h4 : ch = '\r'
  · rw [if_pos h4]; decide
  rw [if_neg h4]
  by_cases h5 : ch = '\t'
  · rw [if_pos h5]; decide
  rw [if_neg h5]
  by_cases h6 : ch.toNat < 32
  · rw [if_pos h6]
    intro hm
    simp only [List.mem_cons, List.not_mem_nil, or_false] at hm
    rcases hm with h | h | h | h | h | h
    · exact absurd h (by decide)
    · exact absurd h (by decide)
    · exact absurd h (by decide)
    · exact absurd h (by decide)
    · exact hexDigit_ne_newline (ch.toNat / 16) (by omega) h.symm
    · exact hexDigit_ne_newline (ch.toNat % 16) (by omega) h.symm
  rw [if_neg h6]
  by_cases h7 : ch = '<'
  · rw [if_pos h7]; decide
  rw [if_neg h7]
  by_cases h8 : ch = '>'
  · rw [if_pos h8]; decide
  rw [if_neg h8]
  by_cases h9 : ch = '&'
  · rw [if_pos h9]; decide
  rw [if_neg h9]
  by_cases h10 : ch.toNat = 8232
  · rw [if_pos h10]; decide
  rw [if_neg h10]
  by_cases h11 : ch.toNat = 8233
  · rw [if_pos h11]; decide
  rw [if_neg h11]
  intro hm
  simp only [List.mem_singleton] at hm
  exact h3 hm.symm

theorem newline_not_mem_quoteJ (s : String) : '\n' ∉ (quoteJ s).data := by
  unfold quoteJ
  intro hm
  rcases List.mem_cons.mp hm with h | h
  · exact absurd h (by decide)
  · rcases List.mem_append.mp h with h1 | h1
    · rcases List.mem_flatMap.mp h1 with ⟨a, _, h2⟩
      exact newline_not_mem_goEscapeChar a h2
    · exact absurd h1 (by decide)

theorem newline_not_mem_natToRevDigitsAux (fuel n : Nat) :
    '\n' ∉ natToRevDigitsAux fuel n := by
  induction fuel generalizing n with
  | zero => cases n <;> simp [natToRevDigitsAux]
  | succ f ih =>
    cases n with
    | zero => simp [natToRevDigitsAux]
    | succ m =>
      simp only [natToRevDigitsAux, List.mem_cons, not_or]
      refine ⟨?_, ?_⟩
      · intro h
        exact digitChar_ne_newline (m + 1) h.symm
      · exact ih ((m + 1) / 10)

theorem newline_not_mem_natToRevDigits (n : Nat) : '\n' ∉ natToRevDigits n :=
  newline_not_mem_natToRevDigitsAux n n

theorem newline_not_mem_intRender (n : Int) : '\n' ∉ (intRender n).data := by
  unfold intRender
  by_cases hn : n < 0
  · rw [if_pos hn]
    intro hm
    rcases List.mem_cons.mp hm with h | h
    · exact absurd h (by decide)
    · exact newline_not_mem_natToRevDigits n.natAbs (List.mem_reverse.mp h)
  · rw [if_neg hn]
    by_cases h0 : n = 0
    · rw [if_pos h0]
      decide
    · rw [if_neg h0]
      intro hm
      exact newline_not_mem_natToRevDigits n.natAbs (List.mem_reverse.mp hm)

theorem newline_not_mem_joinComma (xs : List String) (h : ∀ x ∈ xs, '\n' ∉ x.data) :
    '\n' ∉ (joinComma xs).data := by
  induction xs with
  | nil => simp [joinComma]
  | cons x rest ih =>
    cases rest with
    | nil => exact fun hm => h x (List.mem_cons_self x []) hm
    | cons y t =>
      intro hm
      rw [show joinComma (x :: y :: t) = x ++ "," ++ joinComma (y :: t) from rfl] at hm
      rw [String.data_append, String.data_append] at hm
      rcases List.mem_append.mp hm with h1 | h1
      · rcases List.mem_append.mp h1 with h2 | h2
        · exact h x (List.mem_cons_self x (y :: t)) h2
        · exact absurd h2 (by decide)
      · exact ih (fun z hz => h z (List.mem_cons_of_mem x hz)) h1

theorem newline_not_mem_renderJVal (v : JVal) : '\n' ∉ (renderJVal v).data := by
  cases v with
  | jstr s => exact newline_not_mem_quoteJ s
  | jint n => exact newline_not_mem_intRender n
  | jbool b => cases b <;> decide
  | jlist xs =>
    intro hm
    rw [show renderJVal (.jlist xs) = "[" ++ joinComma (xs.map quoteJ) ++ "]" from rfl] at hm
    rw [String.data_append, String.data_append] at hm
    rcases List.mem_append.mp hm with h | h
    · rcases List.mem_append.mp h with h1 | h1
      · exact absurd h1 (by decide)
      · refine newline_not_mem_joinComma (xs.map quoteJ) ?_ h1
        intro z hz
        rcases List.mem_map.mp hz with ⟨a, _, rfl⟩
        exact newline_not_mem_quoteJ a
    · exact absurd h (by decide)

theorem newline_not_mem_renderObj (fs : List (FieldKey × JVal)) :
    '\n' ∉ (renderObj fs).data := by
  intro hm
  rw [show renderObj fs
      = "\x7b" ++ joinComma (fs.map (fun f => quoteJ (keyName f.1) ++ ":" ++ renderJVal f.2))
        ++ "\x7d" from rfl] at hm
  rw [String.data_append, String.data_append] at hm
  rcases List.mem_append.mp hm with h | h
  · rcases List.mem_append.mp h with h1 | h1
    · exact absurd h1 (by decide)
    · refine newline_not_mem_joinComma _ ?_ h1
      intro z hz
      rcases List.mem_map.mp hz with ⟨f, _, rfl⟩
      intro hz2
      rw [String.data_append, String.data_append] at hz2
      rcases List.mem_append.mp hz2 with h2 | h2
      · rcases List.mem_append.mp h2 with h3 | h3
        · exact newline_not_mem_quoteJ (keyName f.1) h3
        · exact absurd h3 (by decide)
      · exact newline_not_mem_renderJVal f.2 h2
  · exact absurd h (by decide)

theorem encodeCommand_newline (c : Command) :
    (encodeCommand c).data.count '\n' = 1
    ∧ (encodeCommand c).data.getLast? = some '\n' := by
  have hobj := newline_not_mem_renderObj (marshalCommand c)
  have hdat : (encodeCommand c).data = (renderObj (marshalCommand c)).data ++ ['\n'] := by
    rw [show encodeCommand c = renderObj (marshalCommand c) ++ "\n" from rfl]
    rw [String.data_append]
  constructor
  · rw [hdat, List.count_append, List.count_eq_zero.mpr hobj]
    rfl
  · rw [hdat]
    exact List.getLast?_concat _

theorem mem_fst_ite_emit (p : Prop) [Decidable p] (k k0 : FieldKey) (v : JVal) :
    (k ∈ (if p then [(k0, v)] else []).map Prod.fst) ↔ (p ∧ k = k0) := by
  split <;> simp_all

theorem mem_fst_ite_skip (p : Prop) [Decidable p] (k k0 : FieldKey) (v : JVal) :
    (k ∈ (if p then [] else [(k0, v)]).map Prod.fst) ↔ (¬p ∧ k = k0) := by
  split <;> simp_all

theorem mem_fst_payload_chunk (o : Option String) (k : FieldKey) :
    (k ∈ (match o with
          | some s => [(FieldKey.fpayload, JVal.jstr s)]
          | none => ([] : List (FieldKey × JVal))).map Prod.fst)
      ↔ (o ≠ none ∧ k = FieldKey.fpayload) := by
  cases o <;> simp

/-- C8 counterexample: the payload field of the Go command struct is an
interface with omitempty, and omitempty omits an interface only when it
is nil; Input stores the payload string unconditionally, so the command
built for empty input text serializes the empty payload — the claim that
an empty payload text is never serialized is false. -/
theorem C8_counterexample :
    encodeCommand (inputCmd "") = "\x7b\"type\":\"input\",\"payload\":\"\"\x7d\n"
    ∧ commandKeys (inputCmd "") = [FieldKey.ftype, FieldKey.fpayload]
    ∧ (inputCmd "").payload = some "" := by
  decide

/-- C8 amended: every encoded command is exactly one newline-terminated
JSON object (one newline, at the end, since the escaper never emits a raw
newline); the type tag is always present; the keys, cols, rows, event,
button, row, col, shift, ctrl and alt fields are serialized exactly when
they differ from their default/empty values; the payload field however is
serialized exactly when it is present at all (a non-nil interface), so an
explicitly supplied empty payload string is still serialized. -/
theorem C8_amended (c : Command) :
    (FieldKey.ftype ∈ commandKeys c)
    ∧ ((FieldKey.fpayload ∈ commandKeys c) ↔ c.payload ≠ none)
    ∧ ((FieldKey.fkeys ∈ commandKeys c) ↔ c.keys ≠ [])
    ∧ ((FieldKey.fcols ∈ commandKeys c) ↔ c.cols ≠ 0)
    ∧ ((FieldKey.frows ∈ commandKeys c) ↔ c.rows ≠ 0)
    ∧ ((FieldKey.fevent ∈ commandKeys c) ↔ c.event ≠ "")
    ∧ ((FieldKey.fbutton ∈ commandKeys c) ↔ c.button ≠ "")
    ∧ ((FieldKey.frow ∈ commandKeys c) ↔ c.row ≠ 0)
    ∧ ((FieldKey.fcol ∈ commandKeys c) ↔ c.col ≠ 0)
    ∧ ((FieldKey.fshift ∈ commandKeys c) ↔ c.shift = true)
    ∧ ((FieldKey.fctrl ∈ commandKeys c) ↔ c.ctrl = true)
    ∧ ((FieldKey.falt ∈ commandKeys c) ↔ c.alt = true)
    ∧ ((encodeCommand c).data.count '\n' = 1)
    ∧ ((encodeCommand c).data.getLast? = some '\n') := by
  refine ⟨?_, ?_, ?_, ?_, ?_, ?_, ?_, ?_, ?_, ?_, ?_, ?_,
    (encodeCommand_newline c).1, (encodeCommand_newline c).2⟩ <;>
    (simp only [commandKeys, marshalCommand, List.map_append, List.mem_append,
        mem_fst_ite_emit, mem_fst_ite_skip, mem_fst_payload_chunk,
        List.map_cons, List.map_nil, List.mem_cons, List.mem_singleton,
        List.not_mem_nil]
     simp)

end Htlib
